import Mathlib

/-
Shallow embedding of the range-iteration and cluster-pipelined batch-execution
engine of rlm_redis_ippool_tool.c (FreeRADIUS redis IP pool tool), together
with the semantics of its two atomic lease-transition scripts and the Add and
Show operation strategies.

Conventions of the embedding:
  machine integers are Nat with explicit reduction mod 2 to the width where
  overflow can occur; the 128-bit integers mirror the two-halves C struct
  uint128_t (fields h and l, each a 64-bit value); IPv4 addresses are the
  host-order numeric value of the address; the key-value store visible to the
  scripts is one pool worth of state (sorted-set index, per-address metadata
  hash, device reverse-index keys), with addresses and device identifiers
  abstracted to Nat in place of their byte-string form.
-/

/-! Wide integers: the two-halves 128-bit arithmetic of the source. -/

/-- Two-halves representation of a 128-bit unsigned integer, mirroring the
uint128_t struct used when the compiler has no native 128-bit type. -/
structure U128 where
  h : Nat
  l : Nat
deriving DecidableEq

/-- Numeric value of a two-halves 128-bit integer. -/
def uint128_toNat (a : U128) : Nat := a.h * 2 ^ 64 + a.l

/-- Model of uint128_new: build a 128-bit value from two 64-bit halves. -/
def uint128_new (h l : Nat) : U128 := { h := h, l := l }

/-- Model of uint128_lshift. The source zeroes num.l and only then computes
num.h from it, so the branch for shifts of 64 bits or more is translated as
the sequence of the two assignments, in source order. -/
def uint128_lshift (num : U128) (bits : Nat) : U128 :=
  if 64 ≤ bits then
    { h := ((0 : Nat) <<< (bits - 64)) % 2 ^ 64, l := 0 }
  else
    { h := ((num.h <<< bits) ||| (num.l >>> (64 - bits))) % 2 ^ 64,
      l := (num.l <<< bits) % 2 ^ 64 }

/-- Model of uint128_add: low halves added mod 2 to the 64, carry computed
from the low halves as in the source, high halves added with the carry. -/
def uint128_add (a b : U128) : U128 :=
  { h := (a.h + b.h + ((((a.l &&& b.l) &&& 1) + (a.l >>> 1) + (b.l >>> 1)) >>> 63)) % 2 ^ 64,
    l := (a.l + b.l) % 2 ^ 64 }

/-- Model of uint128_bor: the source ORs the low halves but ADDS the high
halves, and the translation preserves that. -/
def uint128_bor (a b : U128) : U128 :=
  { h := (a.h + b.h) % 2 ^ 64, l := a.l ||| b.l }

/-- Model of uint128_eq. -/
def uint128_eq (a b : U128) : Bool := a.h == b.h && a.l == b.l

/-- Model of uint32_gen_mask: an integer with the low n bits set. -/
def uint32_gen_mask (bits : Nat) : Nat :=
  if 32 ≤ bits then 0xffffffff else (1 <<< bits) - 1

/-! AddressRange: iteration and CIDR parsing. -/

/-- Model of the AF_INET branch of ipaddr_next: returns the unchanged address
and false once the current address equals the end, otherwise adds one
prefix-step in 32-bit arithmetic and returns true. -/
def ipaddr_next4 (cur endA plen : Nat) : Nat × Bool :=
  if cur = endA then (cur, false)
  else ((cur + 1 <<< (32 - plen)) % 2 ^ 32, true)

/-- Model of the AF_INET6 branch of ipaddr_next, using the two-halves 128-bit
operations of the source for the equality test and the prefix-step addition. -/
def ipaddr_next6 (cur endA : U128) (plen : Nat) : U128 × Bool :=
  if uint128_eq cur endA then (cur, false)
  else (uint128_add cur (uint128_lshift (uint128_new 0 1) (128 - plen)), true)

/-- Model of the CIDR branch of parse_ip_range for IPv4. Arguments: the parsed
start address a (host bits preserved), the CIDR mask length, and the requested
allocation length (0 defaults to the address width). Returns the
(start, end) pair or none on a constraint violation. -/
def parse_ip_range_cidr4 (a maskLen plen0 : Nat) : Option (Nat × Nat) :=
  let plen := if plen0 = 0 then 32 else plen0
  if plen < maskLen then none
  else if 32 < plen then none
  else if 64 < plen - maskLen then none
  else if plen = 32 ∧ 32 - 1 ≤ maskLen then some (a, a)
  else
    let ip := a ||| (uint32_gen_mask (plen - maskLen) <<< (32 - plen))
    let ip2 := if plen = 32 then (ip + (2 ^ 32 - 1)) % 2 ^ 32 else ip
    some (a, ip2)

/-- Spec-side description of the end address computed by the CIDR branch, for
comparison with the model: the bits between the CIDR mask and the requested
allocation length are set high on top of the start address (the base of the
last allocation-sized sub-block), minus one exactly when allocating
full-width hosts; the width-1 corner collapses to the start address. -/
def cidrEndAmended (a maskLen plen : Nat) : Nat :=
  let base := a ||| ((2 ^ (plen - maskLen) - 1) * 2 ^ (32 - plen))
  if plen = 32 then (if 31 ≤ maskLen then a else base - 1) else base

/-! LeaseScripts: one pool worth of store state and the two Lua scripts. -/

/-- Fields of the per-address metadata hash that the scripts touch. -/
structure LeaseMeta where
  device : Option Nat
  gateway : Option Nat
  range : Option Nat
deriving DecidableEq

/-- One pool worth of store state: the sorted-set index (address to expiry
score), the per-address metadata hash, and the device reverse-index keys. -/
structure PoolState where
  index : Nat → Option Nat
  meta : Nat → Option LeaseMeta
  devkey : Nat → Bool

/-- Model of ZADD key XX CH 0 addr: update the score to 0 only if the member
exists, returning the number of members actually changed. -/
def zaddXXCH0 (s : PoolState) (a : Nat) : Nat × PoolState :=
  match s.index a with
  | none => (0, s)
  | some sc =>
    if sc = 0 then (0, s)
    else (1, { s with index := Function.update s.index a (some 0) })

/-- Model of ZADD key NX 0 addr: add the member with score 0 only if absent,
returning the number of members added. -/
def zaddNX0 (s : PoolState) (a : Nat) : Nat × PoolState :=
  match s.index a with
  | none => (1, { s with index := Function.update s.index a (some 0) })
  | some _ => (0, s)

/-- Model of ZREM key addr: remove the member, returning the number removed. -/
def zrem (s : PoolState) (a : Nat) : Nat × PoolState :=
  match s.index a with
  | none => (0, s)
  | some _ => (1, { s with index := Function.update s.index a none })

/-- Model of HGET addrkey device: nil when either the hash or the field is
missing. -/
def hgetDevice (s : PoolState) (a : Nat) : Option Nat :=
  match s.meta a with
  | none => none
  | some m => m.device

/-- Model of HSET addrkey range v: create the hash if missing, overwrite the
range field otherwise. -/
def hsetRange (s : PoolState) (a v : Nat) : PoolState :=
  match s.meta a with
  | none =>
    { s with meta := Function.update s.meta a (some (LeaseMeta.mk none none (some v))) }
  | some m0 =>
    { s with meta := Function.update s.meta a (some (LeaseMeta.mk m0.device m0.gateway (some v))) }

/-- Model of DEL addrkey. -/
def delMeta (s : PoolState) (a : Nat) : PoolState :=
  { s with meta := Function.update s.meta a none }

/-- Model of DEL devicekey. -/
def delDevKey (s : PoolState) (d : Nat) : PoolState :=
  { s with devkey := Function.update s.devkey d false }

/-- Semantics of the release Lua script: conditionally zero the index score
(ZADD XX CH); stop with 0 when nothing changed; otherwise read the device
field and, when present, delete the device reverse-index key, returning 1. -/
def lua_release_cmd (s : PoolState) (a : Nat) : Nat × PoolState :=
  let r := zaddXXCH0 s a
  if r.1 = 0 then (0, r.2)
  else
    match hgetDevice r.2 a with
    | none => (r.1, r.2)
    | some d => (1, delDevKey r.2 d)

/-- Semantics of the remove Lua script: unconditionally ZREM the index entry;
read the device field; when absent return the ZREM result; when present
delete the metadata hash and the device reverse-index key and return 1. -/
def lua_remove_cmd (s : PoolState) (a : Nat) : Nat × PoolState :=
  let r := zrem s a
  match hgetDevice r.2 a with
  | none => (r.1, r.2)
  | some d => (1, delDevKey (delMeta r.2 a) d)

/-- Effect and visible result of one Add transaction (MULTI, ZADD NX 0 addr,
HSET addrkey range v, EXEC): the returned Nat is element 0 of the EXEC reply,
the ZADD NX result, which the Add result processor adds to its count. -/
def driver_add_apply (s : PoolState) (a v : Nat) : Nat × PoolState :=
  let r := zaddNX0 s a
  (r.1, hsetRange r.2 a v)

/-! BatchExecutor: the pipelined, redirect-aware engine of driver_do_lease. -/

/-- Pipeline limit of the source. -/
def MAX_PIPELINED : Nat := 1000

/-- Reply element inside an EXEC array reply. -/
inductive RVal where
  | nil : RVal
  | str : Nat → RVal
deriving DecidableEq

/-- Wire reply: a simple status (OK or QUEUED), an integer, or the array
produced by EXEC. -/
inductive Reply where
  | status : Reply
  | int : Nat → Reply
  | arr : List RVal → Reply
deriving DecidableEq

/-- Result of the per-batch enqueue loop: the addresses enqueued (at most the
pipeline limit, stopping when the range is exhausted), the final cursor, and
the final exhaustion flag. -/
structure PipeOut where
  addrs : List Nat
  cur : Nat
  more : Bool
deriving DecidableEq

/-- The enqueue loop of driver_do_lease: enqueue the current address and
advance with ipaddr_next4, until the pipeline limit is reached or the range
is exhausted. The fuel argument is the remaining pipeline capacity. -/
def pipeLoop (endA plen : Nat) : Nat → Nat → Bool → PipeOut
  | 0, cur, more => ⟨[], cur, more⟩
  | fuel+1, cur, more =>
    if more then
      let nxt := ipaddr_next4 cur endA plen
      let rest := pipeLoop endA plen fuel nxt.1 nxt.2
      ⟨cur :: rest.addrs, rest.cur, rest.more⟩
    else ⟨[], cur, more⟩

/-- Commands appended by calling the enqueue callback once per address, in
batch order. -/
def enqAll {Cmd : Type} (enq : Nat → List Cmd) : List Nat → List Cmd
  | [] => []
  | a :: rest => enq a ++ enqAll enq rest

/-- Submit a pipeline: execute the commands in order against the store,
collecting one reply per command. -/
def execAll {Cmd σ : Type} (ex : σ → Cmd → Reply × σ) : σ → List Cmd → List Reply × σ
  | st, [] => ([], st)
  | st, c :: cs =>
    let r := ex st c
    let rest := execAll ex r.2 cs
    (r.1 :: rest.1, rest.2)

/-- The reply-processing loop of driver_do_lease: apply the result callback to
every reply; a negative return (modelled as none) skips the reply without
advancing the replay cursor; an accepted reply advances the cursor with
ipaddr_next4. -/
def processLoop {α : Type} (proc : α → Nat → Reply → Option α) (endA plen : Nat) :
    α → Nat → List Reply → α
  | acc, _, [] => acc
  | acc, toProc, r :: rs =>
    match proc acc toProc r with
    | none => processLoop proc endA plen acc toProc rs
    | some acc2 => processLoop proc endA plen acc2 (ipaddr_next4 toProc endA plen).1 rs

/-- Outcome of the cluster attempt loop for one batch. -/
structure BatchOut (σ : Type) where
  replies : List Reply
  cur : Nat
  more : Bool
  store : σ
  sched : List Bool

/-- The cluster attempt loop for one batch: each attempt resets the cursor to
the checkpoint and re-runs the enqueue loop. The schedule lists the redirect
outcomes the store signals, one per attempt, true meaning redirect: the
pipeline is then not executed and the attempt repeats with the exhaustion
flag as the interrupted attempt left it, mirroring the source. A false entry,
or an exhausted schedule, executes the pipeline and succeeds. -/
def clusterLoop {Cmd σ : Type} (enq : Nat → List Cmd) (ex : σ → Cmd → Reply × σ)
    (endA plen acked : Nat) : List Bool → Bool → σ → BatchOut σ
  | [], more, st =>
    let b := pipeLoop endA plen MAX_PIPELINED acked more
    let r := execAll ex st (enqAll enq b.addrs)
    ⟨r.1, b.cur, b.more, r.2, []⟩
  | redir :: rest, more, st =>
    let b := pipeLoop endA plen MAX_PIPELINED acked more
    if redir then clusterLoop enq ex endA plen acked rest b.more st
    else
      let r := execAll ex st (enqAll enq b.addrs)
      ⟨r.1, b.cur, b.more, r.2, rest⟩

/-- The outer loop of driver_do_lease: while addresses remain, checkpoint the
cursor, run the attempt loop for one batch, then feed the replies of the
successful attempt to the result callback starting from the checkpoint. The
fuel argument bounds the number of batches and is irrelevant once large
enough for the interval. -/
def driver_do_lease {Cmd σ α : Type} (enq : Nat → List Cmd) (ex : σ → Cmd → Reply × σ)
    (proc : α → Nat → Reply → Option α) (endA plen : Nat) :
    Nat → List Bool → Nat → Bool → σ → α → α × σ
  | 0, _, _, _, st, acc => (acc, st)
  | fuel+1, sched, cur, more, st, acc =>
    if more then
      let b := clusterLoop enq ex endA plen cur sched more st
      let acc2 := processLoop proc endA plen acc cur b.replies
      driver_do_lease enq ex proc endA plen fuel b.sched b.cur b.more b.store acc2
    else (acc, st)

/-! LeaseOperations: the Remove and Show strategies plugged into the engine. -/

/-- Remove enqueues one EVAL of the remove script per address. -/
def remove_enqueue (a : Nat) : List Nat := [a]

/-- Store semantics of the per-address remove script as the engine sees it:
an integer reply, 1 when the address was still in the index, and the address
leaves the index. The store is abstracted to the set of indexed addresses. -/
def remove_exec (st : Nat → Bool) (a : Nat) : Reply × (Nat → Bool) :=
  (Reply.int (if st a then 1 else 0), Function.update st a false)

/-- Result processor of Remove: sum integer replies, reject anything else. -/
def remove_lease_process (acc : Nat) (_ : Nat) (r : Reply) : Option Nat :=
  match r with
  | Reply.int n => some (acc + n)
  | _ => none

/-- Per-address lease data readable by Show. -/
structure ShowLease where
  score : Nat
  device : Option Nat
  gateway : Option Nat
  range : Option Nat
deriving DecidableEq

/-- Commands of one Show transaction: MULTI, ZSCORE, three HGETs (all
answered with a status reply), then EXEC carrying the address. -/
inductive ShowCmd where
  | plain : ShowCmd
  | exec : Nat → ShowCmd
deriving DecidableEq

/-- Show enqueues six wire commands per address. -/
def show_lease_enqueue (a : Nat) : List ShowCmd :=
  [ShowCmd.plain, ShowCmd.plain, ShowCmd.plain, ShowCmd.plain, ShowCmd.plain, ShowCmd.exec a]

/-- Encode an optional stored field as a reply element. -/
def optRVal : Option Nat → RVal
  | none => RVal.nil
  | some v => RVal.str v

/-- The four elements of the EXEC reply of a Show transaction: score, device,
gateway, range; all nil when the address has no lease. -/
def showFields (st : Nat → Option ShowLease) (a : Nat) : List RVal :=
  match st a with
  | none => [RVal.nil, RVal.nil, RVal.nil, RVal.nil]
  | some L => [RVal.str L.score, optRVal L.device, optRVal L.gateway, optRVal L.range]

/-- Store semantics of Show commands: read-only; status replies for the
queued commands, the four-element array for EXEC. -/
def show_exec (st : Nat → Option ShowLease) (c : ShowCmd) : Reply × (Nat → Option ShowLease) :=
  match c with
  | ShowCmd.plain => (Reply.status, st)
  | ShowCmd.exec a => (Reply.arr (showFields st a), st)

/-- Decode a reply element back to an optional field. -/
def rvalToOpt : RVal → Option Nat
  | RVal.nil => none
  | RVal.str v => some v

/-- One decoded Show record: the address the engine attributed to the reply
and the decoded lease fields. -/
structure LeaseOut where
  addr : Nat
  nextEvent : Nat
  device : Option Nat
  gateway : Option Nat
  range : Option Nat
deriving DecidableEq

/-- Result processor of Show: accept only an array reply of at least four
elements whose first element is a string, and append a record carrying the
current replay-cursor address; reject anything else. -/
def show_lease_process (acc : List LeaseOut) (addr : Nat) (r : Reply) : Option (List LeaseOut) :=
  match r with
  | Reply.arr (e0 :: e1 :: e2 :: e3 :: _) =>
    match e0 with
    | RVal.nil => none
    | RVal.str sc => some (acc ++ [⟨addr, sc, rvalToOpt e1, rvalToOpt e2, rvalToOpt e3⟩])
  | _ => none

/-- The record Show is expected to produce for an address present in the
store (the junk value for an absent address is never used under the
hypotheses of the theorems below). -/
def mkShowRec (st : Nat → Option ShowLease) (a : Nat) : LeaseOut :=
  match st a with
  | none => ⟨a, 0, none, none, none⟩
  | some L => ⟨a, L.score, L.device, L.gateway, L.range⟩

/-! Concrete states used by the closed theorems below. -/

/-- Store in which exactly the addresses 0, 1, 2 are indexed. -/
def removeStoreAll3 : Nat → Bool := fun a => decide (a ≤ 2)

/-- Show store holding a lease only at address 1. -/
def showStoreGap : Nat → Option ShowLease :=
  fun a => if a = 1 then some (ShowLease.mk 7 none none none) else none

/-- Show store holding leases at addresses 0 and 1. -/
def showStoreFull : Nat → Option ShowLease :=
  fun a =>
    if a = 0 then some (ShowLease.mk 3 none none none)
    else if a = 1 then some (ShowLease.mk 7 (some 9) none none) else none

/-- Pool state where address 5 is absent from the index but its metadata
hash survives with a device field, the partially-cleaned shape. -/
def sRem0 : PoolState :=
  { index := fun _ => none,
    meta := fun x => if x = 5 then some (LeaseMeta.mk (some 9) none none) else none,
    devkey := fun d => d == 9 }

/-- Pool state where address 3 is indexed and has metadata without a device
field. -/
def sRemNoDev : PoolState :=
  { index := fun x => if x = 3 then some 0 else none,
    meta := fun x => if x = 3 then some (LeaseMeta.mk none none (some 4)) else none,
    devkey := fun _ => false }

/-- Pool state where address 5 is indexed with score already 0 and has
metadata with a device field. -/
def sRel0 : PoolState :=
  { index := fun x => if x = 5 then some 0 else none,
    meta := fun x => if x = 5 then some (LeaseMeta.mk (some 9) none none) else none,
    devkey := fun d => d == 9 }

/-! Theorems. -/

/-- Claim C8: evaluation of the 128-bit OR at the failing input a = b = 2 to
the 64 (high half 1, low half 0): the code adds the high halves, yielding
2 to the 65, while the bitwise OR of the operands is 2 to the 64. -/
theorem bor_high_half_not_or :
    uint128_toNat (uint128_bor (uint128_new 1 0) (uint128_new 1 0))
      ≠ uint128_toNat (uint128_new 1 0) ||| uint128_toNat (uint128_new 1 0) := by
  decide

/-- Claim C9: evaluation of the 128-bit left shift at the failing input
num = 1, bits = 64: the code zeroes the low half before reading it, so the
result is 0 instead of 2 to the 64, the value mod 2 to the 128 of the
native-width shift. -/
theorem lshift_ge64_zero :
    uint128_toNat (uint128_lshift (uint128_new 0 1) 64)
      ≠ (uint128_toNat (uint128_new 0 1) * 2 ^ 64) % 2 ^ 128 := by
  decide

/-- Claim C5: evaluation of the IPv6 advance at the failing input start 0,
end 2 to the 64, prefix length 64: the prefix step, computed by shifting 1
left by 64 bits, is 0 because of the left-shift slip, so advance reports
more work but leaves the address unchanged and the enumeration never reaches
the end. -/
theorem ipv6_advance_zero_step :
    ipaddr_next6 (uint128_new 0 0) (uint128_new 1 0) 64 = (uint128_new 0 0, true) ∧
    uint128_toNat (uint128_lshift (uint128_new 0 1) 64) = 0 := by
  decide

/-- Claim C1: evaluation of the batch engine at the failing input. Over the
single-batch interval 0..2 with every address indexed, a redirect on the
pipeline execution makes the retry enqueue nothing, because the exhaustion
flag is not reset together with the cursor, so the run reports 0 removals
while the same run without redirects reports 3. -/
theorem redirect_final_batch_lost :
    (driver_do_lease remove_enqueue remove_exec remove_lease_process 2 32
        5 [true] 0 true removeStoreAll3 0).1 = 0 ∧
    (driver_do_lease remove_enqueue remove_exec remove_lease_process 2 32
        5 [] 0 true removeStoreAll3 0).1 = 3 := by
  decide

/-- Claim C2 counterexample: a successfully executed Show batch over the
addresses 0 and 1 of a store with a lease only at address 1 produces exactly
one record, and that record pairs address 0 with the lease data of address 1:
the rejected reply group of the empty address 0 did not advance the replay
cursor, so the record does not carry the address its reply belongs to. -/
theorem show_record_shift_cex :
    (driver_do_lease show_lease_enqueue show_exec show_lease_process 1 32
        3 [] 0 true showStoreGap []).1 = [LeaseOut.mk 0 7 none none none] ∧
    showStoreGap 0 = none ∧ showStoreGap 1 = some (ShowLease.mk 7 none none none) := by
  decide

/-- Claim C3 counterexample: on the partially-cleaned state sRem0 the remove
script returns 1 although the index held no entry for the address, and on
sRemNoDev, whose metadata has no device field, the metadata hash survives the
remove; the claim predicts a return of 0 and an unconditional metadata
deletion respectively. -/
theorem remove_return_cex :
    ((lua_remove_cmd sRem0 5).1 = 1 ∧ sRem0.index 5 = none) ∧
    (lua_remove_cmd sRemNoDev 3).2.meta 3 = some (LeaseMeta.mk none none (some 4)) := by
  decide

/-- Claim C4 counterexample: address 5 exists in the index of sRel0 with
score 0; the release script returns 0 and leaves the device reverse-index
key in place, while the claim predicts a return of 1 and the deletion of the
device key for every present address. -/
theorem release_zero_score_cex :
    sRel0.index 5 = some 0 ∧ (lua_release_cmd sRel0 5).1 = 0 ∧
    (lua_release_cmd sRel0 5).2.devkey 9 = true := by
  decide

/-- Claim C6 counterexample: parsing 10.0.0.0/24 with requested prefix
length 24 yields end 10.0.0.0 (167772160), the base of the block, not the
literal top 10.0.0.255 (167772415) stated by the claim. -/
theorem parse_cidr_delegation_cex :
    parse_ip_range_cidr4 167772160 24 24 = some (167772160, 167772160) ∧
    parse_ip_range_cidr4 167772160 24 24 ≠ some (167772160, 167772415) := by
  decide

/-- Claim C7: both lease-transition scripts are idempotent: for every pool
state and address, the second of two consecutive invocations returns 0 and
leaves the store exactly as the first invocation left it. -/
theorem scripts_idempotent (s : PoolState) (a : Nat) :
    lua_release_cmd (lua_release_cmd s a).2 a = (0, (lua_release_cmd s a).2) ∧
    lua_remove_cmd (lua_remove_cmd s a).2 a = (0, (lua_remove_cmd s a).2) := by
  constructor
  · rcases h1 : s.index a with _ | sc
    · simp [lua_release_cmd, zaddXXCH0, h1]
    · by_cases h0 : sc = 0
      · subst h0
        simp [lua_release_cmd, zaddXXCH0, h1]
      · rcases h2 : s.meta a with _ | m
        · simp [lua_release_cmd, zaddXXCH0, hgetDevice, h1, h0, h2,
                Function.update_same]
        · rcases h3 : m.device with _ | d
          · simp [lua_release_cmd, zaddXXCH0, hgetDevice, h1, h0, h2, h3,
                  Function.update_same]
          · simp [lua_release_cmd, zaddXXCH0, hgetDevice, delDevKey, h1, h0,
                  h2, h3, Function.update_same]
  · rcases h2 : s.meta a with _ | m
    · rcases h1 : s.index a with _ | sc
      · simp [lua_remove_cmd, zrem, hgetDevice, h1, h2]
      · simp [lua_remove_cmd, zrem, hgetDevice, h1, h2, Function.update_same]
    · rcases h3 : m.device with _ | d
      · rcases h1 : s.index a with _ | sc
        · simp [lua_remove_cmd, zrem, hgetDevice, h1, h2, h3]
        · simp [lua_remove_cmd, zrem, hgetDevice, h1, h2, h3,
                Function.update_same]
      · rcases h1 : s.index a with _ | sc
        · simp [lua_remove_cmd, zrem, hgetDevice, delMeta, delDevKey, h1, h2,
                h3, Function.update_same]
        · simp [lua_remove_cmd, zrem, hgetDevice, delMeta, delDevKey, h1, h2,
                h3, Function.update_same]

/-- Claim C3 amended: the remove script unconditionally deletes the address
from the index; it reads the device field of the metadata entry; when a
device field is present it deletes the metadata entry and the device
reverse-index entry and returns 1 even if the index entry was already gone;
when no device field is present it leaves the metadata entry in place and
returns 1 exactly when the index deletion occurred. -/
theorem remove_script_amended (s : PoolState) (a : Nat) :
    (lua_remove_cmd s a).2.index a = none ∧
    (match hgetDevice s a with
     | some d =>
       (lua_remove_cmd s a).1 = 1 ∧ (lua_remove_cmd s a).2.meta a = none ∧
       (lua_remove_cmd s a).2.devkey d = false
     | none =>
       (lua_remove_cmd s a).1 = (if (s.index a).isSome then 1 else 0) ∧
       (lua_remove_cmd s a).2.meta = s.meta ∧
       (lua_remove_cmd s a).2.devkey = s.devkey) := by
  rcases h2 : s.meta a with _ | m
  · rcases h1 : s.index a with _ | sc
    · simp [lua_remove_cmd, zrem, hgetDevice, h1, h2]
    · simp [lua_remove_cmd, zrem, hgetDevice, h1, h2, Function.update_same]
  · rcases h3 : m.device with _ | d
    · rcases h1 : s.index a with _ | sc
      · simp [lua_remove_cmd, zrem, hgetDevice, h1, h2, h3]
      · simp [lua_remove_cmd, zrem, hgetDevice, h1, h2, h3, Function.update_same]
    · rcases h1 : s.index a with _ | sc
      · simp [lua_remove_cmd, zrem, hgetDevice, delMeta, delDevKey, h1, h2, h3,
              Function.update_same]
      · simp [lua_remove_cmd, zrem, hgetDevice, delMeta, delDevKey, h1, h2, h3,
              Function.update_same]

/-- Claim C4 amended: the release script zeroes the index score and returns 1
exactly when the address exists in the index with a nonzero score, because
the conditional update counts changed members; when the address is absent,
or present with score already 0, it returns 0 with no further effects; when
it does return 1 it leaves the metadata untouched and deletes the device
reverse-index entry when the metadata has a device field. -/
theorem release_script_amended (s : PoolState) (a : Nat) :
    (match s.index a with
     | none => lua_release_cmd s a = (0, s)
     | some sc =>
       if sc = 0 then lua_release_cmd s a = (0, s)
       else
         (lua_release_cmd s a).1 = 1 ∧
         (lua_release_cmd s a).2.index a = some 0 ∧
         (lua_release_cmd s a).2.meta = s.meta ∧
         (match hgetDevice s a with
          | some d => (lua_release_cmd s a).2.devkey d = false
          | none => (lua_release_cmd s a).2.devkey = s.devkey)) := by
  rcases h1 : s.index a with _ | sc
  · simp [lua_release_cmd, zaddXXCH0, h1]
  · by_cases h0 : sc = 0
    · subst h0
      simp [lua_release_cmd, zaddXXCH0, h1]
    · rcases h2 : s.meta a with _ | m
      · simp [lua_release_cmd, zaddXXCH0, hgetDevice, h1, h0, h2,
              Function.update_same]
      · rcases h3 : m.device with _ | d
        · simp [lua_release_cmd, zaddXXCH0, hgetDevice, h1, h0, h2, h3,
                Function.update_same]
        · simp [lua_release_cmd, zaddXXCH0, hgetDevice, delDevKey, h1, h0, h2,
                h3, Function.update_same]

/-- Claim C10: in the Add transaction only the index entry is NX-protected:
the metadata range field is overwritten with the operation range value for
every address, existing or not; the visible ZADD result (element 0 of the
EXEC reply, summed by the Add result processor) is 0 for an existing address
and 1 for a new one; an existing index entry keeps its score. -/
theorem add_overwrites_range (s : PoolState) (a v : Nat) :
    (driver_add_apply s a v).2.meta a
        = some (match s.meta a with
                | none => LeaseMeta.mk none none (some v)
                | some m0 => LeaseMeta.mk m0.device m0.gateway (some v)) ∧
    (driver_add_apply s a v).1 = (if (s.index a).isSome then 0 else 1) ∧
    (driver_add_apply s a v).2.index a = (if (s.index a).isSome then s.index a else some 0) := by
  rcases h1 : s.index a with _ | sc
  · rcases h2 : s.meta a with _ | m0
    · simp [driver_add_apply, zaddNX0, hsetRange, h1, h2, Function.update_same]
    · simp [driver_add_apply, zaddNX0, hsetRange, h1, h2, Function.update_same]
  · rcases h2 : s.meta a with _ | m0
    · simp [driver_add_apply, zaddNX0, hsetRange, h1, h2, Function.update_same]
    · simp [driver_add_apply, zaddNX0, hsetRange, h1, h2, Function.update_same]

/-- Positivity transfer through bitwise OR, used for the broadcast decrement. -/
theorem or_pos_of_right {a b : Nat} (hb : 0 < b) : 0 < a ||| b := by
  rcases Nat.eq_zero_or_pos (a ||| b) with h0 | h1
  · exfalso
    have hbz : b = 0 := by
      apply Nat.eq_of_testBit_eq
      intro i
      have h2 := congrArg (fun x => Nat.testBit x i) h0
      simp [Nat.testBit_lor] at h2
      simp [h2.2]
    omega
  · exact h1

/-- The mask generator agrees with 2 to the bits minus one for every width
up to 32. -/
theorem uint32_gen_mask_eq {bits : Nat} (hb : bits ≤ 32) :
    uint32_gen_mask bits = 2 ^ bits - 1 := by
  unfold uint32_gen_mask
  by_cases h : 32 ≤ bits
  · have : bits = 32 := by omega
    subst this
    norm_num
  · rw [if_neg h, Nat.shiftLeft_eq, one_mul]

/-- Claim C6 amended: for every in-range start address, CIDR mask and
requested allocation length, the CIDR parse succeeds and the end address is
exactly cidrEndAmended: the base of the last allocation-aligned sub-block
(bits between the CIDR mask and the requested length set high over the start
address), minus one exactly when allocating full-width hosts, with the
width-1 corner collapsing to the start; the end is not the literal top of
the block when allocating sub-prefixes. -/
theorem parse_cidr_end_amended (a m p : Nat) (ha : a < 2 ^ 32) (h1 : m ≤ p)
    (h2 : p ≤ 32) (h3 : 0 < p) :
    parse_ip_range_cidr4 a m p = some (a, cidrEndAmended a m p) := by
  unfold parse_ip_range_cidr4 cidrEndAmended
  have hp0 : ¬ p = 0 := by omega
  rw [if_neg hp0, if_neg (by omega : ¬ p < m), if_neg (by omega : ¬ 32 < p),
      if_neg (by omega : ¬ 64 < p - m)]
  by_cases hc : p = 32 ∧ 32 - 1 ≤ m
  · rw [if_pos hc]
    rw [if_pos hc.1, if_pos (by omega : 31 ≤ m)]
  · rw [if_neg hc]
    dsimp only
    have hmask : uint32_gen_mask (p - m) <<< (32 - p) = (2 ^ (p - m) - 1) * 2 ^ (32 - p) := by
      rw [uint32_gen_mask_eq (by omega), Nat.shiftLeft_eq]
    by_cases hp32 : p = 32
    · subst hp32
      have hm31 : ¬ 31 ≤ m := by
        intro hcon
        exact hc ⟨rfl, by omega⟩
      rw [if_pos rfl, if_pos rfl, if_neg hm31, hmask]
      have hmpos : 0 < (2 ^ (32 - m) - 1) * 2 ^ (32 - 32) := by
        have : (4 : Nat) ≤ 2 ^ (32 - m) := by
          calc (4 : Nat) = 2 ^ 2 := by norm_num
          _ ≤ 2 ^ (32 - m) := Nat.pow_le_pow_right (by norm_num) (by omega)
        simp
        omega
      have hippos : 0 < a ||| (2 ^ (32 - m) - 1) * 2 ^ (32 - 32) := or_pos_of_right hmpos
      have hiplt : a ||| (2 ^ (32 - m) - 1) * 2 ^ (32 - 32) < 2 ^ 32 := by
        apply Nat.or_lt_two_pow ha
        have : (2 ^ (32 - m) - 1) * 2 ^ (32 - 32) = 2 ^ (32 - m) - 1 := by
          simp
        rw [this]
        have : (2 : Nat) ^ (32 - m) ≤ 2 ^ 32 := Nat.pow_le_pow_right (by norm_num) (by omega)
        omega
      refine congrArg (fun x => some (a, x)) ?_
      set ip := a ||| (2 ^ (32 - m) - 1) * 2 ^ (32 - 32) with hip
      have hsplit : ip + (2 ^ 32 - 1) = (ip - 1) + 1 * 2 ^ 32 := by omega
      rw [hsplit, Nat.add_mul_mod_self_right, Nat.mod_eq_of_lt (by omega)]
    · rw [if_neg hp32, if_neg hp32, hmask]

/-- Claim C6 amended, witness: the amended end computation instantiated at
10.0.0.0/24 with requested length 32, discharging the range hypotheses. -/
theorem parse_cidr_end_amended_witness :
    (167772160 < 2 ^ 32 ∧ 24 ≤ 32 ∧ 32 ≤ 32 ∧ 0 < 32) ∧
    parse_ip_range_cidr4 167772160 24 32 = some (167772160, cidrEndAmended 167772160 24 32) :=
  ⟨⟨by decide, by decide, by decide, by decide⟩,
   parse_cidr_end_amended 167772160 24 32 (by decide) (by decide) (by decide) (by decide)⟩

/-- Show commands never modify the store. -/
theorem show_exec_store (st : Nat → Option ShowLease) (c : ShowCmd) :
    (show_exec st c).2 = st := by
  cases c <;> rfl

/-- Executing a pipeline of Show commands yields the pointwise replies and
leaves the store unchanged. -/
theorem execAll_show (st : Nat → Option ShowLease) (cs : List ShowCmd) :
    execAll show_exec st cs = (cs.map fun c => (show_exec st c).1, st) := by
  induction cs with
  | nil => rfl
  | cons c cs ih =>
    simp [execAll, show_exec_store, ih]

/-- Decoding inverts encoding of optional fields. -/
theorem rvalToOpt_optRVal (o : Option Nat) : rvalToOpt (optRVal o) = o := by
  cases o <;> rfl

/-- Claim C2 amended: for a successfully executed batch whose every address
holds a lease, the result callback rejects the five status replies of each
per-address group and accepts exactly the EXEC array, advancing the replay
cursor once per group, so the records extend the aggregate in batch-address
order and every record carries the address its reply group belongs to. -/
theorem show_batch_records_amended (st : Nat → Option ShowLease) (endA plen : Nat) :
    ∀ (fuel cur : Nat) (more : Bool) (acc : List LeaseOut),
      (∀ a ∈ (pipeLoop endA plen fuel cur more).addrs, st a ≠ none) →
      processLoop show_lease_process endA plen acc cur
          (execAll show_exec st (enqAll show_lease_enqueue (pipeLoop endA plen fuel cur more).addrs)).1
        = acc ++ (pipeLoop endA plen fuel cur more).addrs.map (mkShowRec st) := by
  intro fuel
  induction fuel with
  | zero =>
    intro cur more acc h
    simp [pipeLoop, enqAll, execAll, processLoop]
  | succ n ih =>
    intro cur more acc h
    cases more with
    | false => simp [pipeLoop, enqAll, execAll, processLoop]
    | true =>
      have hcur : st cur ≠ none := by
        apply h
        simp [pipeLoop]
      rcases hL : st cur with _ | L
      · exact absurd hL hcur
      have hrest : ∀ a ∈ (pipeLoop endA plen n (ipaddr_next4 cur endA plen).1
          (ipaddr_next4 cur endA plen).2).addrs, st a ≠ none := by
        intro a hmem
        apply h
        simp [pipeLoop]
        right
        exact hmem
      have ihx := ih (ipaddr_next4 cur endA plen).1 (ipaddr_next4 cur endA plen).2
        (acc ++ [mkShowRec st cur]) hrest
      rw [execAll_show] at ihx ⊢
      have hplain : (show_exec st ShowCmd.plain).1 = Reply.status := rfl
      have hhead : (show_exec st (ShowCmd.exec cur)).1
          = Reply.arr [RVal.str L.score, optRVal L.device, optRVal L.gateway, optRVal L.range] := by
        simp [show_exec, showFields, hL]
      have hrec : mkShowRec st cur = ⟨cur, L.score, L.device, L.gateway, L.range⟩ := by
        simp [mkShowRec, hL]
      simp only [pipeLoop, if_true]
      simp only [enqAll, show_lease_enqueue, List.map_append, List.map_cons, List.map_nil,
                 List.cons_append, List.nil_append]
      rw [hplain, hhead]
      simp only [processLoop, show_lease_process]
      simp only [rvalToOpt_optRVal]
      rw [← hrec, ihx]
      simp [List.append_assoc]

/-- Claim C2 amended, witness: the batch over addresses 0 and 1 of a store
holding a lease at both addresses, with the hypothesis discharged by
evaluation: the two records carry their own addresses in order. -/
theorem show_batch_records_amended_witness :
    (∀ a ∈ (pipeLoop 1 32 MAX_PIPELINED 0 true).addrs, showStoreFull a ≠ none) ∧
    processLoop show_lease_process 1 32 [] 0
        (execAll show_exec showStoreFull
          (enqAll show_lease_enqueue (pipeLoop 1 32 MAX_PIPELINED 0 true).addrs)).1
      = [] ++ (pipeLoop 1 32 MAX_PIPELINED 0 true).addrs.map (mkShowRec showStoreFull) :=
  ⟨by decide,
   show_batch_records_amended showStoreFull 1 32 MAX_PIPELINED 0 true [] (by decide)⟩
